import Mathlib

/-!
Verification of the sliding-window anomaly detector implemented by the
`MSTD` class in `efficient-data-stream-anomaly-detection.py`.

The detector state and its two methods are embedded shallowly: Python
floats are modelled as real numbers, the unbounded history lists as Lean
lists, and `math.sqrt` as `Real.sqrt`.  The main loop of the script runs
`mstd.moving_average_and_moving_standard_deviation(value).find_anomaly()`
once per tick; this per-tick pipeline is `step` below.

The model uses a natural-number `window_size` and is faithful to the
Python program whenever `1 ≤ window_size` (for such sizes the slice
`self._data[-self._window_size:]` is exactly the trailing `window_size`
elements, and the divisions by `self._window_size` are ordinary real
divisions); the theorems carry that hypothesis.  The dynamic-typing
aspects of `__init__` and of the `isinstance` guard of the ingest method
are modelled separately over `PyVal` at the end of the definitions.
-/

noncomputable section

/-- State of an `MSTD` detector instance: the fields created by
`MSTD.__init__` (`self._data`, `self._window_size`, `self._ma`,
`self._mstd`, `self._threshold`, `self._anomalies`). -/
structure MSTDState where
  data : List ℝ
  window_size : ℕ
  ma : List ℝ
  mstd : List ℝ
  threshold : ℝ
  anomalies : List ℝ

/-- `MSTD.__init__(window_size, threshold)` on well-typed arguments: all
history lists start empty. -/
def MSTD_init (window_size : ℕ) (threshold : ℝ) : MSTDState :=
  { data := [], window_size := window_size, ma := [], mstd := [],
    threshold := threshold, anomalies := [] }

/-- `MSTD.moving_average_and_moving_standard_deviation(value)`: append
`value` to `self._data`; if at least `window_size` samples are present,
take the trailing slice `self._data[-self._window_size:]`, compute its
mean, the population variance (division by `window_size`), and the square
root of that variance, and append the two statistics to `self._ma` and
`self._mstd`.  The method returns `self`; here it returns the new state. -/
def moving_average_and_moving_standard_deviation
    (s : MSTDState) (value : ℝ) : MSTDState :=
  let data := s.data ++ [value]
  if s.window_size ≤ data.length then
    let current_window := data.drop (data.length - s.window_size)
    let window_average := current_window.sum / (s.window_size : ℝ)
    let variance :=
      ((current_window.map fun x => (x - window_average) ^ 2).sum)
        / (s.window_size : ℝ)
    let window_std_deviation := Real.sqrt variance
    { s with data := data, ma := s.ma ++ [window_average],
             mstd := s.mstd ++ [window_std_deviation] }
  else
    { s with data := data }

/-- `MSTD.find_anomaly()`: if at least one statistic exists, compare the
newest sample `self._data[-1]` against the newest statistic pair
`self._ma[index]`, `self._mstd[index]` with `index = len(self._ma) - 1`,
and append the sample to `self._anomalies` when its absolute deviation
from the moving average exceeds `threshold * mstd`.  The body runs inside
`try/except`, so a failed list index leaves the state unchanged. -/
def find_anomaly (s : MSTDState) : MSTDState :=
  if 1 ≤ s.ma.length then
    let index := s.ma.length - 1
    match s.data.getLast?, s.ma[index]?, s.mstd[index]? with
    | some newest, some m, some sd =>
        if |newest - m| > s.threshold * sd then
          { s with anomalies := s.anomalies ++ [newest] }
        else s
    | _, _, _ => s
  else s

/-- One tick of the script's main loop:
`mstd.moving_average_and_moving_standard_deviation(value).find_anomaly()`. -/
def step (s : MSTDState) (value : ℝ) : MSTDState :=
  find_anomaly (moving_average_and_moving_standard_deviation s value)

/-- Ingest a whole sample sequence, without running the anomaly check. -/
def runIngest (s : MSTDState) (vs : List ℝ) : MSTDState :=
  vs.foldl moving_average_and_moving_standard_deviation s

/-- Run the full per-tick pipeline (ingest then anomaly check) over a
sample sequence, as the script's main loop does. -/
def run (s : MSTDState) (vs : List ℝ) : MSTDState :=
  vs.foldl step s

/-- Modelled from the spec: `currentStatistic()` returns `None` during
warm-up and otherwise the latest `(MA, MSTD)` pair.  The source has no
such method; `find_anomaly` reads the same latest entries
`self._ma[index]` and `self._mstd[index]`, so the statistic is modelled
as the last elements of the two history lists. -/
def currentStatistic (s : MSTDState) : Option (ℝ × ℝ) :=
  match s.ma.getLast?, s.mstd.getLast? with
  | some m, some sd => some (m, sd)
  | _, _ => none

/-- Modelled from the spec: the exact arithmetic mean of a sample list. -/
def listMean (l : List ℝ) : ℝ := l.sum / (l.length : ℝ)

/-- Modelled from the spec: population variance of a sample list — the
mean of squared deviations from the mean, dividing by the length, not by
length - 1. -/
def listPopVariance (l : List ℝ) : ℝ :=
  ((l.map fun x => (x - listMean l) ^ 2).sum) / (l.length : ℝ)

/-- Modelled from the spec: population standard deviation of a sample
list. -/
def listPopStd (l : List ℝ) : ℝ := Real.sqrt (listPopVariance l)

/-- Python runtime values offered to the detector's constructor and to
the ingest method.  `nan`, `inf` and `ninf` are the non-finite `float`
values; `nonNumeric` stands for any value that is neither an `int` nor a
`float`. -/
inductive PyVal where
  | int (n : ℤ)
  | float (x : ℝ)
  | nan
  | inf
  | ninf
  | nonNumeric
  deriving DecidableEq

/-- `isinstance(v, (int, float))`: NaN and the infinities are `float`
instances, so they pass this test. -/
def pyIsIntOrFloat : PyVal → Bool
  | .nonNumeric => false
  | _ => true

/-- `isinstance(v, int)`. -/
def pyIsInt : PyVal → Bool
  | .int _ => true
  | _ => false

/-- The Python-level error raised by the type guards of the source. -/
inductive PyError where
  | typeError
  deriving DecidableEq

/-- Detector state as `MSTD.__init__` creates it, before any assumption
about the runtime types of the stored configuration values. -/
structure MSTDRawState where
  data : List PyVal
  window_size : PyVal
  ma : List PyVal
  mstd : List PyVal
  threshold : PyVal
  anomalies : List PyVal
  deriving DecidableEq

/-- `MSTD.__init__`: the only validation performed is the two
`isinstance` checks — `window_size` must be an `int` and `threshold` an
`int` or `float`.  No bound on `window_size` and no sign condition on
`threshold` is checked. -/
def MSTDinit (window_size threshold : PyVal) : Except PyError MSTDRawState :=
  if pyIsInt window_size = false then .error .typeError
  else if pyIsIntOrFloat threshold = false then .error .typeError
  else .ok { data := [], window_size := window_size, ma := [], mstd := [],
             threshold := threshold, anomalies := [] }

/-- The input guard and history append at the top of
`MSTD.moving_average_and_moving_standard_deviation`: raise `TypeError`
when `value` is not an `int` or `float`, otherwise append it to
`self._data`.  The window-statistics block that follows is modelled over
the reals in `moving_average_and_moving_standard_deviation`; this
fragment is what decides how a non-finite sample is treated. -/
def ingestGuard (data : List PyVal) (value : PyVal) :
    Except PyError (List PyVal) :=
  if pyIsIntOrFloat value = false then .error .typeError
  else .ok (data ++ [value])

/-! ### Proof-side shorthand for the values the ingest method computes -/

/-- The trailing window `data[-ws:]` of a history (for `1 ≤ ws`). -/
def windowOf (data : List ℝ) (ws : ℕ) : List ℝ :=
  data.drop (data.length - ws)

/-- The moving average the ingest method appends. -/
def avgOf (data : List ℝ) (ws : ℕ) : ℝ :=
  (windowOf data ws).sum / (ws : ℝ)

/-- The moving standard deviation the ingest method appends. -/
def stdOf (data : List ℝ) (ws : ℕ) : ℝ :=
  Real.sqrt
    ((((windowOf data ws).map fun x => (x - avgOf data ws) ^ 2).sum) / (ws : ℝ))

/-- Coupling between two detectors that differ only in their threshold:
same sample and statistic histories, thresholds `t1 ≤ t2` respectively,
the higher-threshold detector's anomaly log a sublist of the other's, and
all recorded standard deviations non-negative. -/
def Tracks (t1 t2 : ℝ) (s1 s2 : MSTDState) : Prop :=
  s1.data = s2.data ∧ s1.window_size = s2.window_size ∧ s1.ma = s2.ma ∧
  s1.mstd = s2.mstd ∧ s1.threshold = t1 ∧ s2.threshold = t2 ∧
  List.Sublist s2.anomalies s1.anomalies ∧ ∀ x ∈ s1.mstd, 0 ≤ x

end

lemma runIngest_nil (s : MSTDState) : runIngest s [] = s := rfl

lemma run_nil (s : MSTDState) : run s [] = s := rfl

lemma runIngest_concat (s : MSTDState) (vs : List ℝ) (v : ℝ) :
    runIngest s (vs ++ [v])
      = moving_average_and_moving_standard_deviation (runIngest s vs) v := by
  simp [runIngest, List.foldl_append]

lemma run_concat (s : MSTDState) (vs : List ℝ) (v : ℝ) :
    run s (vs ++ [v]) = step (run s vs) v := by
  simp [run, List.foldl_append]

lemma run_cons (s : MSTDState) (v : ℝ) (vs : List ℝ) :
    run s (v :: vs) = run (step s v) vs := rfl

/-- Unfolding of the ingest method when the window is (now) full. -/
lemma ingest_of_le (s : MSTDState) (v : ℝ)
    (h : s.window_size ≤ s.data.length + 1) :
    moving_average_and_moving_standard_deviation s v =
      { s with data := s.data ++ [v],
               ma := s.ma ++ [avgOf (s.data ++ [v]) s.window_size],
               mstd := s.mstd ++ [stdOf (s.data ++ [v]) s.window_size] } := by
  rw [moving_average_and_moving_standard_deviation]
  simp only [List.length_append, List.length_cons, List.length_nil, Nat.zero_add]
  rw [if_pos h]
  simp [avgOf, stdOf, windowOf]

/-- Unfolding of the ingest method during warm-up. -/
lemma ingest_of_lt (s : MSTDState) (v : ℝ)
    (h : s.data.length + 1 < s.window_size) :
    moving_average_and_moving_standard_deviation s v =
      { s with data := s.data ++ [v] } := by
  rw [moving_average_and_moving_standard_deviation]
  simp only [List.length_append, List.length_cons, List.length_nil, Nat.zero_add]
  rw [if_neg (by omega)]

/-- Master description of a pure-ingest run from a fresh detector:
the sample history is the input sequence, configuration is untouched,
no anomaly is recorded, and the two statistic histories have length
`n + 1 - windowSize` (truncated subtraction). -/
lemma runIngest_init_spec (ws : ℕ) (t : ℝ) (hws : 1 ≤ ws) (vs : List ℝ) :
    (runIngest (MSTD_init ws t) vs).data = vs ∧
    (runIngest (MSTD_init ws t) vs).window_size = ws ∧
    (runIngest (MSTD_init ws t) vs).threshold = t ∧
    (runIngest (MSTD_init ws t) vs).anomalies = [] ∧
    (runIngest (MSTD_init ws t) vs).ma.length = vs.length + 1 - ws ∧
    (runIngest (MSTD_init ws t) vs).mstd.length = vs.length + 1 - ws := by
  induction vs using List.reverseRecOn with
  | nil =>
      refine ⟨rfl, rfl, rfl, rfl, ?_, ?_⟩ <;> simp [runIngest_nil, MSTD_init] <;> omega
  | append_singleton ys v ih =>
      obtain ⟨hdata, hws', ht, han, hma, hmstd⟩ := ih
      rw [runIngest_concat]
      by_cases hfull : ws ≤ ys.length + 1
      · rw [ingest_of_le _ _ (by rw [hdata, hws']; omega)]
        refine ⟨by simp [hdata], by simp [hws'], by simp [ht], by simp [han], ?_, ?_⟩ <;>
          simp [hma, hmstd] <;> omega
      · rw [ingest_of_lt _ _ (by rw [hdata, hws']; omega)]
        refine ⟨by simp [hdata], by simp [hws'], by simp [ht], by simp [han], ?_, ?_⟩ <;>
          simp [hma, hmstd] <;> omega

lemma length_windowOf (vs : List ℝ) (ws : ℕ) (h : ws ≤ vs.length) :
    (windowOf vs ws).length = ws := by
  simp only [windowOf, List.length_drop]
  omega

lemma listMean_windowOf (vs : List ℝ) (ws : ℕ) (h : ws ≤ vs.length) :
    listMean (windowOf vs ws) = avgOf vs ws := by
  rw [listMean, avgOf, length_windowOf vs ws h]

lemma listPopStd_windowOf (vs : List ℝ) (ws : ℕ) (h : ws ≤ vs.length) :
    listPopStd (windowOf vs ws) = stdOf vs ws := by
  rw [listPopStd, listPopVariance, stdOf, listMean_windowOf vs ws h,
    length_windowOf vs ws h]

/-- The statistics appended at the last tick of a full run are the mean
and standard deviation of the trailing window of the whole input. -/
lemma runIngest_init_getLast (ws : ℕ) (t : ℝ) (hws : 1 ≤ ws) (vs : List ℝ)
    (hn : ws ≤ vs.length) :
    (runIngest (MSTD_init ws t) vs).ma.getLast? = some (avgOf vs ws) ∧
    (runIngest (MSTD_init ws t) vs).mstd.getLast? = some (stdOf vs ws) := by
  rcases List.eq_nil_or_concat vs with rfl | ⟨ys, v, rfl⟩
  · simp at hn
    omega
  · obtain ⟨hdata, hws', ht, han, hma, hmstd⟩ := runIngest_init_spec ws t hws ys
    simp only [List.concat_eq_append] at hn ⊢
    rw [runIngest_concat]
    rw [ingest_of_le _ _ (by rw [hdata, hws']; simp at hn ⊢; omega)]
    rw [hdata, hws']
    constructor <;> simp [List.getLast?_concat]

lemma find_anomaly_of_ma_nil (s : MSTDState) (h : s.ma = []) :
    find_anomaly s = s := by
  rw [find_anomaly, if_neg (by simp [h])]

/-- During warm-up the anomaly check never fires, so the full per-tick
pipeline coincides with pure ingestion. -/
lemma run_eq_runIngest_of_warmup (ws : ℕ) (t : ℝ) (hws : 1 ≤ ws)
    (vs : List ℝ) (h : vs.length < ws) :
    run (MSTD_init ws t) vs = runIngest (MSTD_init ws t) vs := by
  induction vs using List.reverseRecOn with
  | nil => rfl
  | append_singleton ys v ih =>
      have hlen : (ys ++ [v]).length = ys.length + 1 := by simp
      rw [hlen] at h
      rw [run_concat, ih (by omega)]
      rw [step, ← runIngest_concat]
      apply find_anomaly_of_ma_nil
      have hma := (runIngest_init_spec ws t hws (ys ++ [v])).2.2.2.2.1
      rw [hlen] at hma
      exact List.length_eq_zero.mp (by omega)

/-- C1: after ingesting `s_1..s_n` with `n ≥ windowSize`, the statistic
produced at tick `n` is exactly the arithmetic mean and the population
standard deviation (division by `windowSize`) of the last `windowSize`
samples, independent of any earlier history. -/
theorem C1_window_exactness (ws : ℕ) (t : ℝ) (vs : List ℝ)
    (hws : 1 ≤ ws) (hn : ws ≤ vs.length) :
    (runIngest (MSTD_init ws t) vs).ma.getLast?
        = some (listMean (vs.drop (vs.length - ws))) ∧
    (runIngest (MSTD_init ws t) vs).mstd.getLast?
        = some (listPopStd (vs.drop (vs.length - ws))) := by
  have h1 : vs.drop (vs.length - ws) = windowOf vs ws := rfl
  rw [h1, listMean_windowOf vs ws hn, listPopStd_windowOf vs ws hn]
  exact runIngest_init_getLast ws t hws vs hn

theorem C1_window_exactness_witness :
    1 ≤ 3 ∧ 3 ≤ List.length [(10 : ℝ), 10, 10, 50] ∧
    ((runIngest (MSTD_init 3 (6 / 5)) [(10 : ℝ), 10, 10, 50]).ma.getLast?
        = some (listMean (List.drop (List.length [(10 : ℝ), 10, 10, 50] - 3)
            [(10 : ℝ), 10, 10, 50])) ∧
     (runIngest (MSTD_init 3 (6 / 5)) [(10 : ℝ), 10, 10, 50]).mstd.getLast?
        = some (listPopStd (List.drop (List.length [(10 : ℝ), 10, 10, 50] - 3)
            [(10 : ℝ), 10, 10, 50]))) :=
  ⟨by norm_num, by simp,
    C1_window_exactness 3 (6 / 5) [10, 10, 10, 50] (by norm_num) (by simp)⟩

/-- C5: `currentStatistic` is `none` after each of the first
`windowSize - 1` ingested samples and defined from the `windowSize`-th
sample onward. -/
theorem C5_warmup_invariant (ws : ℕ) (t : ℝ) (hws : 1 ≤ ws) (vs : List ℝ) :
    (vs.length < ws →
      currentStatistic (runIngest (MSTD_init ws t) vs) = none) ∧
    (ws ≤ vs.length →
      (currentStatistic (runIngest (MSTD_init ws t) vs)).isSome = true) := by
  constructor
  · intro h
    obtain ⟨_, _, _, _, hma, hmstd⟩ := runIngest_init_spec ws t hws vs
    have h1 : (runIngest (MSTD_init ws t) vs).ma = [] :=
      List.length_eq_zero.mp (by omega)
    have h2 : (runIngest (MSTD_init ws t) vs).mstd = [] :=
      List.length_eq_zero.mp (by omega)
    simp [currentStatistic, h1, h2]
  · intro h
    obtain ⟨h1, h2⟩ := runIngest_init_getLast ws t hws vs h
    simp [currentStatistic, h1, h2]

theorem C5_warmup_invariant_witness :
    1 ≤ 3 ∧
    ((List.length [(1 : ℝ), 2] < 3 →
      currentStatistic (runIngest (MSTD_init 3 (6 / 5)) [(1 : ℝ), 2]) = none) ∧
     (3 ≤ List.length [(1 : ℝ), 2] →
      (currentStatistic
        (runIngest (MSTD_init 3 (6 / 5)) [(1 : ℝ), 2])).isSome = true)) :=
  ⟨by norm_num, C5_warmup_invariant 3 (6 / 5) (by norm_num) [1, 2]⟩

/-- C6: for any input, the anomaly check flags nothing at any tick before
the window first fills: running the full pipeline on fewer than
`windowSize` samples leaves the anomaly log empty. -/
theorem C6_no_anomalies_warmup (ws : ℕ) (t : ℝ) (vs : List ℝ)
    (hws : 1 ≤ ws) (h : vs.length < ws) :
    (run (MSTD_init ws t) vs).anomalies = [] := by
  rw [run_eq_runIngest_of_warmup ws t hws vs h]
  exact (runIngest_init_spec ws t hws vs).2.2.2.1

theorem C6_no_anomalies_warmup_witness :
    1 ≤ 3 ∧ List.length [(1 : ℝ), 2] < 3 ∧
    (run (MSTD_init 3 (6 / 5)) [(1 : ℝ), 2]).anomalies = [] :=
  ⟨by norm_num, by simp,
    C6_no_anomalies_warmup 3 (6 / 5) [1, 2] (by norm_num) (by simp)⟩

/-- C10: after `n` ingests the MA and MSTD histories have the same
length, namely `max 0 (n - windowSize + 1)`; each ingest appends exactly
one sample to the data history and at most one entry to each statistic
history. -/
theorem C10_history_lengths (ws : ℕ) (t : ℝ) (hws : 1 ≤ ws) (vs : List ℝ)
    (s : MSTDState) (v : ℝ) :
    ((runIngest (MSTD_init ws t) vs).ma.length
        = (runIngest (MSTD_init ws t) vs).mstd.length) ∧
    (((runIngest (MSTD_init ws t) vs).ma.length : ℤ)
        = max 0 ((vs.length : ℤ) - (ws : ℤ) + 1)) ∧
    ((moving_average_and_moving_standard_deviation s v).data.length
        = s.data.length + 1) ∧
    ((moving_average_and_moving_standard_deviation s v).ma.length
        ≤ s.ma.length + 1) ∧
    ((moving_average_and_moving_standard_deviation s v).mstd.length
        ≤ s.mstd.length + 1) := by
  obtain ⟨_, _, _, _, hma, hmstd⟩ := runIngest_init_spec ws t hws vs
  refine ⟨by omega, by omega, ?_, ?_, ?_⟩ <;>
    by_cases hc : s.window_size ≤ s.data.length + 1
  · rw [ingest_of_le s v hc]; simp
  · rw [ingest_of_lt s v (by omega)]; simp
  · rw [ingest_of_le s v hc]; simp
  · rw [ingest_of_lt s v (by omega)]; simp
  · rw [ingest_of_le s v hc]; simp
  · rw [ingest_of_lt s v (by omega)]; simp

theorem C10_history_lengths_witness :
    1 ≤ 3 ∧
    (((runIngest (MSTD_init 3 1) [(5 : ℝ), 6, 7, 8]).ma.length
        = (runIngest (MSTD_init 3 1) [(5 : ℝ), 6, 7, 8]).mstd.length) ∧
     (((runIngest (MSTD_init 3 1) [(5 : ℝ), 6, 7, 8]).ma.length : ℤ)
        = max 0 ((List.length [(5 : ℝ), 6, 7, 8] : ℤ) - (3 : ℤ) + 1)) ∧
     ((moving_average_and_moving_standard_deviation (MSTD_init 3 1) 5).data.length
        = (MSTD_init 3 1).data.length + 1) ∧
     ((moving_average_and_moving_standard_deviation (MSTD_init 3 1) 5).ma.length
        ≤ (MSTD_init 3 1).ma.length + 1) ∧
     ((moving_average_and_moving_standard_deviation (MSTD_init 3 1) 5).mstd.length
        ≤ (MSTD_init 3 1).mstd.length + 1)) :=
  ⟨by norm_num, C10_history_lengths 3 1 (by norm_num) [5, 6, 7, 8] (MSTD_init 3 1) 5⟩

/-- C2: at a tick where the window statistic is defined, `find_anomaly`
flags the newest sample (appending it to the anomaly log exactly once)
precisely when `|sample - MA| > threshold * MSTD`; otherwise it leaves
the state untouched. -/
theorem C2_anomaly_rule (ws : ℕ) (t : ℝ) (vs : List ℝ)
    (hws : 1 ≤ ws) (hn : ws ≤ vs.length) (newest m sd : ℝ)
    (hd : vs.getLast? = some newest)
    (hm : (runIngest (MSTD_init ws t) vs).ma.getLast? = some m)
    (hsd : (runIngest (MSTD_init ws t) vs).mstd.getLast? = some sd) :
    ((find_anomaly (runIngest (MSTD_init ws t) vs)).anomalies
        = (runIngest (MSTD_init ws t) vs).anomalies ++ [newest]
      ↔ |newest - m| > t * sd) ∧
    (¬ |newest - m| > t * sd →
      find_anomaly (runIngest (MSTD_init ws t) vs)
        = runIngest (MSTD_init ws t) vs) := by
  obtain ⟨hdata, hws', ht, han, hma, hmstd⟩ := runIngest_init_spec ws t hws vs
  have hlen : 1 ≤ (runIngest (MSTD_init ws t) vs).ma.length := by omega
  have hd' : (runIngest (MSTD_init ws t) vs).data.getLast? = some newest := by
    rw [hdata]; exact hd
  have hm' : (runIngest (MSTD_init ws t) vs).ma[
      (runIngest (MSTD_init ws t) vs).ma.length - 1]? = some m := by
    rw [← List.getLast?_eq_getElem?]; exact hm
  have hsd' : (runIngest (MSTD_init ws t) vs).mstd[
      (runIngest (MSTD_init ws t) vs).ma.length - 1]? = some sd := by
    rw [show (runIngest (MSTD_init ws t) vs).ma.length
          = (runIngest (MSTD_init ws t) vs).mstd.length by omega,
      ← List.getLast?_eq_getElem?]
    exact hsd
  rw [find_anomaly, if_pos hlen]
  rw [hd']
  simp only [hm', hsd', ht]
  by_cases hcond : |newest - m| > t * sd
  · rw [if_pos hcond]
    exact ⟨⟨fun _ => hcond, fun _ => rfl⟩, fun hc => absurd hcond hc⟩
  · rw [if_neg hcond]
    exact ⟨⟨fun hc => absurd hc (by simp), fun hc => absurd hc hcond⟩,
      fun _ => rfl⟩

/-- Unfolding of `find_anomaly` when the three list reads succeed. -/
lemma find_anomaly_eq_ite (s : MSTDState) (newest m sd : ℝ)
    (hlen : 1 ≤ s.ma.length)
    (hd : s.data.getLast? = some newest)
    (hm : s.ma[s.ma.length - 1]? = some m)
    (hsd : s.mstd[s.ma.length - 1]? = some sd) :
    find_anomaly s =
      if |newest - m| > s.threshold * sd then
        { s with anomalies := s.anomalies ++ [newest] }
      else s := by
  rw [find_anomaly, if_pos hlen, hd]
  simp only [hm, hsd]

lemma windowOf_concat_one (data : List ℝ) (v : ℝ) :
    windowOf (data ++ [v]) 1 = [v] := by
  rw [windowOf]
  simp only [List.length_append, List.length_cons, List.length_nil,
    Nat.zero_add, Nat.add_sub_cancel]
  exact List.drop_left data [v]

lemma avgOf_concat_one (data : List ℝ) (v : ℝ) : avgOf (data ++ [v]) 1 = v := by
  rw [avgOf, windowOf_concat_one]
  simp

lemma stdOf_concat_one (data : List ℝ) (v : ℝ) : stdOf (data ++ [v]) 1 = 0 := by
  rw [stdOf, windowOf_concat_one, avgOf_concat_one]
  simp

/-- Complete description of a full-pipeline run with `windowSize = 1`:
every window is the singleton holding the newest sample, so every MA
entry is the sample itself, every MSTD entry is `0`, and the anomaly log
stays empty. -/
lemma run_window_one (t : ℝ) (vs : List ℝ) :
    run (MSTD_init 1 t) vs =
      { data := vs, window_size := 1, ma := vs,
        mstd := List.replicate vs.length 0, threshold := t,
        anomalies := [] } := by
  induction vs using List.reverseRecOn with
  | nil => rfl
  | append_singleton ys v ih =>
      rw [run_concat, ih, step, ingest_of_le _ _ (by simp)]
      simp only [avgOf_concat_one, stdOf_concat_one]
      rw [find_anomaly_eq_ite _ v v 0 (by simp) (List.getLast?_concat ys)
        (by simp)
        (by rw [show (ys ++ [v]).length - 1 = ys.length by simp]
            rw [List.getElem?_append_right (by simp)]
            simp)]
      rw [if_neg (by simp)]
      simp [List.replicate_succ']

/-- C7 counterexample: with `windowSize = 1` and `threshold = 1`, the
sample `5` differs from its immediate predecessor `0`, yet nothing is
flagged — the anomaly log stays empty, contrary to the claim that every
differing consecutive pair is flagged. -/
theorem C7_counterexample :
    (0 : ℝ) ≠ 5 ∧ (run (MSTD_init 1 1) [(0 : ℝ), 5]).anomalies = [] := by
  refine ⟨by norm_num, ?_⟩
  rw [run_window_one]

/-- C7 (amended): with `windowSize = 1` every window is the singleton
holding the newest sample, so every MSTD entry is `0` and the deviation
of the sample from its own window mean is always `0`; consequently no
sample is ever flagged anomalous, whether it equals its predecessor or
differs from it. -/
theorem C7_degenerate_window (t : ℝ) (vs : List ℝ) :
    (∀ x ∈ (run (MSTD_init 1 t) vs).mstd, x = 0) ∧
    (run (MSTD_init 1 t) vs).anomalies = [] := by
  rw [run_window_one]
  exact ⟨fun x hx => List.eq_of_mem_replicate hx, rfl⟩

/-- The anomaly decision of `find_anomaly` never reads the anomaly log:
for a fixed value of all other fields either every call is a no-op, or
every call appends the same newest sample. -/
lemma find_anomaly_branch (s : MSTDState) :
    (∀ a : List ℝ,
      find_anomaly { s with anomalies := a } = { s with anomalies := a }) ∨
    (∃ newest, ∀ a : List ℝ,
      find_anomaly { s with anomalies := a }
        = { s with anomalies := a ++ [newest] }) := by
  by_cases hlen : 1 ≤ s.ma.length
  · cases hd : s.data.getLast? with
    | none =>
        left
        intro a
        rw [find_anomaly]
        dsimp only
        rw [if_pos hlen, hd]
    | some newest =>
        cases hm : s.ma[s.ma.length - 1]? with
        | none =>
            left
            intro a
            rw [find_anomaly]
            dsimp only
            rw [if_pos hlen, hd]
            simp only [hm]
        | some m =>
            cases hsd : s.mstd[s.ma.length - 1]? with
            | none =>
                left
                intro a
                rw [find_anomaly]
                dsimp only
                rw [if_pos hlen, hd]
                simp only [hm, hsd]
            | some sd =>
                by_cases hcond : |newest - m| > s.threshold * sd
                · right
                  refine ⟨newest, fun a => ?_⟩
                  rw [find_anomaly]
                  dsimp only
                  rw [if_pos hlen, hd]
                  simp only [hm, hsd]
                  rw [if_pos hcond]
                · left
                  intro a
                  rw [find_anomaly]
                  dsimp only
                  rw [if_pos hlen, hd]
                  simp only [hm, hsd]
                  rw [if_neg hcond]
  · left
    intro a
    rw [find_anomaly]
    dsimp only
    rw [if_neg hlen]

/-- C8 counterexample: with `windowSize = 2`, `threshold = 1/2` and
samples `[0, 2]` the tick is anomalous, and calling `find_anomaly` a
second time with no intervening ingest appends the sample again: the log
after the second call differs from the log after the first call. -/
theorem C8_counterexample :
    (find_anomaly (find_anomaly
        (runIngest (MSTD_init 2 (1 / 2)) [(0 : ℝ), 2]))).anomalies
      ≠ (find_anomaly (runIngest (MSTD_init 2 (1 / 2)) [(0 : ℝ), 2])).anomalies := by
  have habs : |(2 : ℝ) - 1| > (1 / 2 : ℝ) * 1 := by
    rw [show (2 : ℝ) - 1 = 1 by norm_num, abs_one]
    norm_num
  have e : runIngest (MSTD_init 2 (1 / 2)) [(0 : ℝ), 2]
      = { data := [0, 2], window_size := 2, ma := [1], mstd := [1],
          threshold := 1 / 2, anomalies := [] } := by
    show moving_average_and_moving_standard_deviation
        (moving_average_and_moving_standard_deviation (MSTD_init 2 (1 / 2)) 0) 2
      = _
    rw [ingest_of_lt (MSTD_init 2 (1 / 2)) 0 (by simp [MSTD_init])]
    rw [ingest_of_le _ _ (by simp [MSTD_init])]
    norm_num [MSTD_init, avgOf, stdOf, windowOf, Real.sqrt_one]
  have f1 : find_anomaly
      { data := [(0 : ℝ), 2], window_size := 2, ma := [1], mstd := [1],
        threshold := 1 / 2, anomalies := ([] : List ℝ) }
      = { data := [0, 2], window_size := 2, ma := [1], mstd := [1],
          threshold := 1 / 2, anomalies := [2] } := by
    rw [find_anomaly_eq_ite _ 2 1 1 (by simp) (by simp) (by simp) (by simp)]
    dsimp only
    rw [if_pos habs]
    simp
  have f2 : find_anomaly
      { data := [(0 : ℝ), 2], window_size := 2, ma := [1], mstd := [1],
        threshold := 1 / 2, anomalies := ([2] : List ℝ) }
      = { data := [0, 2], window_size := 2, ma := [1], mstd := [1],
          threshold := 1 / 2, anomalies := [2, 2] } := by
    rw [find_anomaly_eq_ite _ 2 1 1 (by simp) (by simp) (by simp) (by simp)]
    dsimp only
    rw [if_pos habs]
    simp
  rw [e, f1, f2]
  simp

/-- C8 (amended): a second `find_anomaly` call with no intervening ingest
re-applies exactly the same test, so it appends the same delta again:
the log after the second call is the log after the first call followed by
whatever the first call added.  In particular the log is unchanged by the
second call only when the tick was not flagged. -/
theorem C8_second_call (s : MSTDState) :
    (find_anomaly (find_anomaly s)).anomalies
      = (find_anomaly s).anomalies
          ++ (find_anomaly s).anomalies.drop s.anomalies.length := by
  rcases find_anomaly_branch s with h | ⟨newest, h⟩
  · have h1 : find_anomaly s = s := h s.anomalies
    rw [h1, h1]
    simp [List.drop_length]
  · have h1 : find_anomaly s = { s with anomalies := s.anomalies ++ [newest] } :=
      h s.anomalies
    rw [h1, h (s.anomalies ++ [newest])]
    dsimp only
    rw [show (s.anomalies ++ [newest]).drop s.anomalies.length = [newest] from
      List.drop_left s.anomalies [newest]]

theorem C2_anomaly_rule_witness :
    1 ≤ 3 ∧ 3 ≤ List.length [(5 : ℝ), 5, 5] ∧
    (((find_anomaly (runIngest (MSTD_init 3 (6 / 5)) [(5 : ℝ), 5, 5])).anomalies
        = (runIngest (MSTD_init 3 (6 / 5)) [(5 : ℝ), 5, 5]).anomalies ++ [5]
      ↔ |(5 : ℝ) - 5| > (6 / 5 : ℝ) * 0) ∧
     (¬ |(5 : ℝ) - 5| > (6 / 5 : ℝ) * 0 →
      find_anomaly (runIngest (MSTD_init 3 (6 / 5)) [(5 : ℝ), 5, 5])
        = runIngest (MSTD_init 3 (6 / 5)) [(5 : ℝ), 5, 5])) :=
  ⟨by norm_num, by simp,
    C2_anomaly_rule 3 (6 / 5) [5, 5, 5] (by norm_num) (by simp) 5 5 0
      (by simp)
      (by rw [(runIngest_init_getLast 3 (6 / 5) (by norm_num) [5, 5, 5]
            (by simp)).1]
          norm_num [avgOf, windowOf])
      (by rw [(runIngest_init_getLast 3 (6 / 5) (by norm_num) [5, 5, 5]
            (by simp)).2]
          norm_num [stdOf, avgOf, windowOf])⟩

/-- C3 (code behavior at the failing input): the `isinstance` guard of
the ingest method tests the runtime type only, and NaN and the infinities
are `float` instances, so a non-finite sample passes the guard and is
appended to the sample history with no error surfaced; only a
non-numeric value raises `TypeError`. -/
theorem C3_nonfinite_accepted :
    ingestGuard [] PyVal.nan = Except.ok [PyVal.nan] ∧
    ingestGuard [] PyVal.inf = Except.ok [PyVal.inf] ∧
    ingestGuard [] PyVal.ninf = Except.ok [PyVal.ninf] ∧
    ingestGuard [] PyVal.nonNumeric = Except.error PyError.typeError :=
  ⟨rfl, rfl, rfl, rfl⟩

/-- C4 (code behavior at the failing input): `MSTD.__init__` performs
only the two `isinstance` checks, so constructing with `window_size = 1`
(or even `0`) and a non-positive threshold succeeds — no `InvalidConfig`
failure exists in the code. -/
theorem C4_invalid_config_accepted :
    MSTDinit (PyVal.int 1) (PyVal.float (-1))
      = Except.ok
          { data := [], window_size := PyVal.int 1, ma := [],
            mstd := [], threshold := PyVal.float (-1), anomalies := [] } ∧
    MSTDinit (PyVal.int 0) (PyVal.int 0)
      = Except.ok
          { data := [], window_size := PyVal.int 0, ma := [],
            mstd := [], threshold := PyVal.int 0, anomalies := [] } :=
  ⟨rfl, rfl⟩

lemma ingest_tracks (t1 t2 : ℝ) (s1 s2 : MSTDState) (v : ℝ)
    (h : Tracks t1 t2 s1 s2) :
    Tracks t1 t2 (moving_average_and_moving_standard_deviation s1 v)
      (moving_average_and_moving_standard_deviation s2 v) := by
  obtain ⟨hdata, hws, hma, hmstd, ht1, ht2, hsub, hpos⟩ := h
  by_cases hc : s1.window_size ≤ s1.data.length + 1
  · rw [ingest_of_le s1 v hc, ingest_of_le s2 v (by rw [← hdata, ← hws]; exact hc)]
    refine ⟨by simp [hdata], by simp [hws], by simp [hma, hdata, hws],
      by simp [hmstd, hdata, hws], by simp [ht1], by simp [ht2],
      by simpa using hsub, ?_⟩
    intro x hx
    rcases (by simpa using hx :
        x ∈ s1.mstd ∨ x = stdOf (s1.data ++ [v]) s1.window_size) with h1 | h1
    · exact hpos x h1
    · rw [h1, stdOf]
      exact Real.sqrt_nonneg _
  · rw [ingest_of_lt s1 v (by omega), ingest_of_lt s2 v (by rw [← hdata, ← hws]; omega)]
    exact ⟨by simp [hdata], by simp [hws], by simp [hma], by simp [hmstd],
      by simp [ht1], by simp [ht2], by simpa using hsub, by simpa using hpos⟩

lemma find_anomaly_tracks (t1 t2 : ℝ) (h12 : t1 ≤ t2) (s1 s2 : MSTDState)
    (h : Tracks t1 t2 s1 s2) :
    Tracks t1 t2 (find_anomaly s1) (find_anomaly s2) := by
  obtain ⟨hdata, hws, hma, hmstd, ht1, ht2, hsub, hpos⟩ := h
  by_cases hlen : 1 ≤ s1.ma.length
  · cases hd : s1.data.getLast? with
    | none =>
        have e1 : find_anomaly s1 = s1 := by
          rw [find_anomaly, if_pos hlen, hd]
        have e2 : find_anomaly s2 = s2 := by
          rw [find_anomaly, if_pos (by rw [← hma]; exact hlen),
            show s2.data.getLast? = none by rw [← hdata]; exact hd]
        rw [e1, e2]
        exact ⟨hdata, hws, hma, hmstd, ht1, ht2, hsub, hpos⟩
    | some newest =>
        cases hm : s1.ma[s1.ma.length - 1]? with
        | none =>
            have e1 : find_anomaly s1 = s1 := by
              rw [find_anomaly, if_pos hlen, hd]
              simp only [hm]
            have e2 : find_anomaly s2 = s2 := by
              rw [find_anomaly, if_pos (by rw [← hma]; exact hlen),
                show s2.data.getLast? = some newest by rw [← hdata]; exact hd]
              simp only [show s2.ma[s2.ma.length - 1]? = none by
                rw [← hma]; exact hm]
            rw [e1, e2]
            exact ⟨hdata, hws, hma, hmstd, ht1, ht2, hsub, hpos⟩
        | some m =>
            cases hsd : s1.mstd[s1.ma.length - 1]? with
            | none =>
                have e1 : find_anomaly s1 = s1 := by
                  rw [find_anomaly, if_pos hlen, hd]
                  simp only [hm, hsd]
                have e2 : find_anomaly s2 = s2 := by
                  rw [find_anomaly, if_pos (by rw [← hma]; exact hlen),
                    show s2.data.getLast? = some newest by
                      rw [← hdata]; exact hd]
                  simp only [show s2.ma[s2.ma.length - 1]? = some m by
                      rw [← hma]; exact hm,
                    show s2.mstd[s2.ma.length - 1]? = none by
                      rw [← hmstd, ← hma]; exact hsd]
                rw [e1, e2]
                exact ⟨hdata, hws, hma, hmstd, ht1, ht2, hsub, hpos⟩
            | some sd =>
                have hsdnn : 0 ≤ sd := by
                  obtain ⟨hn, rfl⟩ := List.getElem?_eq_some.mp hsd
                  exact hpos _ (List.getElem_mem hn)
                have e1 : find_anomaly s1 =
                    if |newest - m| > s1.threshold * sd then
                      { s1 with anomalies := s1.anomalies ++ [newest] }
                    else s1 :=
                  find_anomaly_eq_ite s1 newest m sd hlen hd hm hsd
                have e2 : find_anomaly s2 =
                    if |newest - m| > s2.threshold * sd then
                      { s2 with anomalies := s2.anomalies ++ [newest] }
                    else s2 :=
                  find_anomaly_eq_ite s2 newest m sd
                    (by rw [← hma]; exact hlen)
                    (by rw [← hdata]; exact hd)
                    (by rw [← hma]; exact hm)
                    (by rw [← hmstd, ← hma]; exact hsd)
                rw [e1, e2, ht1, ht2]
                by_cases hc2 : |newest - m| > t2 * sd
                · have hc1 : |newest - m| > t1 * sd :=
                    lt_of_le_of_lt (mul_le_mul_of_nonneg_right h12 hsdnn) hc2
                  rw [if_pos hc1, if_pos hc2]
                  exact ⟨by simp [hdata], by simp [hws], by simp [hma],
                    by simp [hmstd], by simp [ht1], by simp [ht2],
                    by simpa using hsub.append_right [newest],
                    by simpa using hpos⟩
                · rw [if_neg hc2]
                  by_cases hc1 : |newest - m| > t1 * sd
                  · rw [if_pos hc1]
                    exact ⟨by simp [hdata], by simp [hws], by simp [hma],
                      by simp [hmstd], by simp [ht1], by simp [ht2],
                      by simpa using hsub.trans (List.sublist_append_left _ _),
                      by simpa using hpos⟩
                  · rw [if_neg hc1]
                    exact ⟨hdata, hws, hma, hmstd, ht1, ht2, hsub, hpos⟩
  · have e1 : find_anomaly s1 = s1 := by rw [find_anomaly, if_neg hlen]
    have e2 : find_anomaly s2 = s2 := by
      rw [find_anomaly, if_neg (by rw [← hma]; exact hlen)]
    rw [e1, e2]
    exact ⟨hdata, hws, hma, hmstd, ht1, ht2, hsub, hpos⟩

lemma run_tracks (t1 t2 : ℝ) (h12 : t1 ≤ t2) (vs : List ℝ)
    (s1 s2 : MSTDState) (h : Tracks t1 t2 s1 s2) :
    Tracks t1 t2 (run s1 vs) (run s2 vs) := by
  induction vs generalizing s1 s2 with
  | nil => exact h
  | cons v vs ih =>
      rw [run_cons, run_cons]
      exact ih _ _ (find_anomaly_tracks t1 t2 h12 _ _ (ingest_tracks t1 t2 _ _ v h))

/-- C9: for a fixed input sequence and window size, raising the threshold
never flags more: the anomaly log under the larger threshold is a sublist
of the log under the smaller one, and in particular no longer. -/
theorem C9_threshold_monotone (ws : ℕ) (vs : List ℝ) (t1 t2 : ℝ)
    (hws : 1 ≤ ws) (h12 : t1 ≤ t2) :
    List.Sublist (run (MSTD_init ws t2) vs).anomalies
        (run (MSTD_init ws t1) vs).anomalies ∧
    (run (MSTD_init ws t2) vs).anomalies.length
      ≤ (run (MSTD_init ws t1) vs).anomalies.length := by
  have h0 : Tracks t1 t2 (MSTD_init ws t1) (MSTD_init ws t2) :=
    ⟨rfl, rfl, rfl, rfl, rfl, rfl, List.Sublist.refl _, by simp [MSTD_init]⟩
  have h := run_tracks t1 t2 h12 vs _ _ h0
  exact ⟨h.2.2.2.2.2.2.1, (h.2.2.2.2.2.2.1).length_le⟩

theorem C9_threshold_monotone_witness :
    1 ≤ 2 ∧ (1 : ℝ) ≤ 2 ∧
    (List.Sublist (run (MSTD_init 2 (2 : ℝ)) [(0 : ℝ), 2]).anomalies
        (run (MSTD_init 2 (1 : ℝ)) [(0 : ℝ), 2]).anomalies ∧
     (run (MSTD_init 2 (2 : ℝ)) [(0 : ℝ), 2]).anomalies.length
       ≤ (run (MSTD_init 2 (1 : ℝ)) [(0 : ℝ), 2]).anomalies.length) :=
  ⟨by norm_num, by norm_num,
    C9_threshold_monotone 2 [0, 2] 1 2 (by norm_num) (by norm_num)⟩
